import Mathlib

/-!
Shallow embedding of the streaming response translators of the
copilot-api gateway: the Response-API-style translator
(src/routes/responses/stream-translation.ts), the Anthropic-style
translator (src/routes/messages/stream-translation.ts) and the
Gemini-style translator (src/routes/gemini/stream-translation.ts),
together with the helper mappers they use
(mapFinishReasonToStatus, mapOpenAIStopReasonToAnthropic,
mapOpenAIFinishReasonToGemini).

The TypeScript functions mutate a per-connection state record and push
events onto an array; here every such function is a pure function from
the state to a pair of the new state and the list of events it pushed,
composed in exactly the order of the source.  JavaScript string
truthiness tests (undefined, null and the empty string are falsy) are
modelled by the predicate truthy on Option String.  JavaScript Map and
plain number-keyed objects are modelled as insertion-ordered
association lists with Map set semantics (replace in place when the key
exists, append otherwise).  The random hexadecimal identifier suffix
produced by randomBytes(12).toString("hex") is modelled by a fixed
placeholder string: no verified property depends on the random value.
-/

namespace CopilotApi

/-- JavaScript truthiness of an optional string field: null, undefined
and the empty string are all falsy. -/
def truthy : Option String → Bool
  | none => false
  | some s => !s.isEmpty

/-- Insertion-ordered association-list lookup, modelling Map.get and
number-keyed object indexing. -/
def alistGet {α : Type} : List (Nat × α) → Nat → Option α
  | [], _ => none
  | (k, v) :: rest, key => if k = key then some v else alistGet rest key

/-- Insertion-ordered association-list write, modelling Map.set and
number-keyed object assignment: replace in place when the key exists,
append otherwise. -/
def alistSet {α : Type} : List (Nat × α) → Nat → α → List (Nat × α)
  | [], key, v => [(key, v)]
  | (k, w) :: rest, key, v =>
    if k = key then (k, v) :: rest else (k, w) :: alistSet rest key v

/-- The finish_reason union of an upstream chat-completion chunk choice:
"stop", "length", "tool_calls" or "content_filter". -/
inductive FinishReason where
  | stop
  | length
  | toolCalls
  | contentFilter
deriving DecidableEq

/-- One element of delta.tool_calls.  The nested function object of the
source (function?: Name?, arguments?) is flattened into the two optional
fields fname and fargs. -/
structure ToolCallDelta where
  index : Nat
  id : Option String := none
  fname : Option String := none
  fargs : Option String := none
deriving DecidableEq

/-- usage.prompt_tokens_details of an upstream chunk. -/
structure UsageDetails where
  cachedTokens : Option Nat := none
deriving DecidableEq

/-- usage of an upstream chunk: always a complete snapshot when present. -/
structure ChunkUsage where
  promptTokens : Nat
  completionTokens : Nat
  totalTokens : Nat
  promptTokensDetails : Option UsageDetails := none
deriving DecidableEq

/-- choices[i].delta of an upstream chunk. -/
structure ChunkDelta where
  content : Option String := none
  reasoningText : Option String := none
  reasoningOpaque : Option String := none
  toolCalls : Option (List ToolCallDelta) := none
deriving DecidableEq

/-- One element of an upstream chunk's choices array. -/
structure ChunkChoice where
  delta : ChunkDelta
  finishReason : Option FinishReason := none
deriving DecidableEq

/-- An upstream ChatCompletionChunk as consumed by all three stream
translators. -/
structure ChatCompletionChunk where
  id : String
  model : String
  created : Nat
  choices : List ChunkChoice
  usage : Option ChunkUsage := none
deriving DecidableEq

/-- usage?.prompt_tokens_details?.cached_tokens of a chunk: some value
exactly when the whole optional chain is present. -/
def chunkCachedTokens (c : ChatCompletionChunk) : Option Nat :=
  match c.usage with
  | none => none
  | some u =>
    match u.promptTokensDetails with
    | none => none
    | some d => d.cachedTokens

/-- Random hexadecimal suffix of randomBytes(12).toString("hex"),
modelled by a fixed placeholder value. -/
def randomHex : String := "0123456789abcdef01234567"

/-- The common shape of every translator loop: iterate over the items,
thread the state through the per-item step and append the events each
step pushes. -/
def foldSteps {α σ ε : Type} (f : σ → α → σ × List ε) (init : σ)
    (xs : List α) : σ × List ε :=
  xs.foldl
    (fun acc x =>
      let step := f acc.1 x
      (step.1, acc.2 ++ step.2))
    (init, [])

/-- Running the loop body from an arbitrary event accumulator prepends
that accumulator to the loop's own events. -/
theorem foldSteps_acc {α σ ε : Type} (f : σ → α → σ × List ε)
    (xs : List α) : ∀ (t : σ) (pre : List ε),
    xs.foldl
        (fun acc x =>
          let step := f acc.1 x
          (step.1, acc.2 ++ step.2))
        (t, pre)
      = ((foldSteps f t xs).1, pre ++ (foldSteps f t xs).2) := by
  induction xs with
  | nil => intro t pre; simp [foldSteps]
  | cons x rest ih =>
    intro t pre
    show rest.foldl _ ((f t x).1, pre ++ (f t x).2) = _
    rw [ih]
    conv_rhs =>
      rw [show foldSteps f t (x :: rest)
            = rest.foldl
                (fun acc y =>
                  let step := f acc.1 y
                  (step.1, acc.2 ++ step.2))
                ((f t x).1, [] ++ (f t x).2) from rfl,
        ih]
    simp

/-- Unfolding one iteration of the loop. -/
theorem foldSteps_cons {α σ ε : Type} (f : σ → α → σ × List ε) (s : σ)
    (x : α) (xs : List α) :
    foldSteps f s (x :: xs)
      = ((foldSteps f (f s x).1 xs).1,
         (f s x).2 ++ (foldSteps f (f s x).1 xs).2) := by
  show xs.foldl _ ((f s x).1, [] ++ (f s x).2) = _
  rw [foldSteps_acc]
  simp

/-- The state component of foldSteps is the plain fold of the state
component of the step. -/
theorem foldSteps_fst {α σ ε : Type} (f : σ → α → σ × List ε) (s : σ)
    (xs : List α) :
    (foldSteps f s xs).1 = xs.foldl (fun t x => (f t x).1) s := by
  suffices h : ∀ (t : σ) (evs : List ε),
      (xs.foldl
        (fun acc x =>
          let step := f acc.1 x
          (step.1, acc.2 ++ step.2))
        (t, evs)).1 = xs.foldl (fun t x => (f t x).1) t by
    exact h s []
  induction xs with
  | nil => intro t evs; rfl
  | cons x rest ih => intro t evs; exact ih (f t x).1 (evs ++ (f t x).2)

/-- A predicate on states preserved by every step is preserved by the
whole loop. -/
theorem foldSteps_state_inv {α σ ε : Type} (f : σ → α → σ × List ε)
    (P : σ → Prop) (hstep : ∀ t x, P t → P (f t x).1) (s : σ)
    (xs : List α) (hs : P s) : P (foldSteps f s xs).1 := by
  rw [foldSteps_fst]
  induction xs generalizing s with
  | nil => exact hs
  | cons x rest ih => exact ih (f s x).1 (hstep s x hs)

/-- A property of event lists that holds for nil, is closed under
append and holds for every step's events holds for the whole loop's
events. -/
theorem foldSteps_events_prop {α σ ε : Type} (f : σ → α → σ × List ε)
    (Q : List ε → Prop) (hnil : Q [])
    (happ : ∀ a b, Q a → Q b → Q (a ++ b))
    (hstep : ∀ t x, Q (f t x).2) (s : σ) (xs : List α) :
    Q (foldSteps f s xs).2 := by
  suffices h : ∀ (t : σ) (evs : List ε), Q evs →
      Q ((xs.foldl
        (fun acc x =>
          let step := f acc.1 x
          (step.1, acc.2 ++ step.2))
        (t, evs)).2) by
    exact h s [] hnil
  induction xs with
  | nil => intro t evs hq; exact hq
  | cons x rest ih =>
    intro t evs hq
    exact ih (f t x).1 (evs ++ (f t x).2) (happ _ _ hq (hstep t x))

namespace Responses

/-- generateItemId of routes/responses/utils. -/
def generateItemId (pfx : String) : String := pfx ++ "_" ++ randomHex

/-- generateResponseId of routes/responses/utils: reuse the upstream id
when it is truthy, normalising the resp underscore marker at its front. -/
def generateResponseId (originalId : Option String) : String :=
  match originalId with
  | some s =>
    if !s.isEmpty then
      if s.startsWith "resp_" then s else "resp_" ++ s
    else "resp_" ++ randomHex
  | none => "resp_" ++ randomHex

/-- mapFinishReasonToStatus of routes/responses/utils. -/
def mapFinishReasonToStatus : Option FinishReason → String
  | none => "in_progress"
  | some .stop => "completed"
  | some .toolCalls => "completed"
  | some .length => "incomplete"
  | some .contentFilter => "incomplete"

/-- The request-level fields of ResponseAPIPayload that the translator
echoes back in response envelopes.  Request fields the translator never
reads (input, instructions, stream, user, store and so on) are omitted;
the union-typed tool_choice and truncation fields and the tools and
reasoning objects are carried as plain strings since the translator
only copies them through. -/
structure ResponseAPIPayload where
  model : String
  temperature : Option Rat := none
  topP : Option Rat := none
  maxOutputTokens : Option Nat := none
  tools : Option (List String) := none
  toolChoice : Option String := none
  truncation : Option String := none
  reasoning : Option String := none
  metadata : Option (List (String × String)) := none
deriving DecidableEq

/-- ResponseUsage: input_tokens_details is carried as the cached token
count when present. -/
structure ResponseUsage where
  inputTokens : Nat
  inputTokensDetails : Option Nat := none
  outputTokens : Nat
  totalTokens : Nat
deriving DecidableEq

/-- A finalized output item: an assistant message whose content is a
single output_text part, or a function_call item.  The constant role
assistant and the always-empty annotations array of the source are
left implicit. -/
inductive OutputItem where
  | message (id : String) (status : String) (text : String)
  | functionCall (id : String) (callId : String) (name : String)
      (arguments : String) (status : String)
deriving DecidableEq

/-- The full aggregate ResponseAPIResponse object.  The constant fields
object = response and error = null of the source are left implicit;
incomplete_details is carried as its optional reason string. -/
structure ResponseAPIResponse where
  id : String
  status : String
  createdAt : Nat
  model : String
  output : List OutputItem
  outputText : Option String
  incompleteDetails : Option String
  usage : ResponseUsage
  temperature : Option Rat
  topP : Option Rat
  maxOutputTokens : Option Nat
  tools : Option (List String)
  toolChoice : Option String
  truncation : Option String
  reasoning : Option String
  metadata : Option (List (String × String))
deriving DecidableEq

/-- A Response-API stream event.  Content parts are always output_text
parts, carried as their text. -/
inductive ResponseStreamEvent where
  | outputItemAdded (outputIndex : Nat) (item : OutputItem)
  | contentPartAdded (itemId : String) (outputIndex : Nat)
      (contentIndex : Nat) (partText : String)
  | outputTextDelta (itemId : String) (outputIndex : Nat)
      (contentIndex : Nat) (delta : String)
  | outputTextDone (itemId : String) (outputIndex : Nat)
      (contentIndex : Nat) (text : String)
  | contentPartDone (itemId : String) (outputIndex : Nat)
      (contentIndex : Nat) (partText : String)
  | outputItemDone (outputIndex : Nat) (item : OutputItem)
  | functionCallArgumentsDelta (itemId : String) (outputIndex : Nat)
      (delta : String)
  | functionCallArgumentsDone (itemId : String) (outputIndex : Nat)
      (arguments : String)
  | responseCompleted (response : ResponseAPIResponse)
  | responseIncomplete (response : ResponseAPIResponse)
deriving DecidableEq

/-- The per-slot record of accumulatedToolCalls. -/
structure ToolCallInfo where
  id : String
  callId : String
  name : String
  args : String
  outputIndex : Nat
deriving DecidableEq

/-- ResponseAPIStreamState. -/
structure StreamState where
  responseId : String
  model : String
  createdAt : Nat
  messageStarted : Bool
  currentOutputIndex : Nat
  currentContentIndex : Nat
  messageItemId : Option String
  accumulatedText : String
  totalAccumulatedText : String
  accumulatedToolCalls : List (Nat × ToolCallInfo)
  outputItems : List OutputItem
  usage : ResponseUsage
  payload : ResponseAPIPayload
deriving DecidableEq

/-- createStreamState of routes/responses/stream-translation. -/
def createStreamState (payload : ResponseAPIPayload)
    (initialChunk : ChatCompletionChunk) : StreamState :=
  { responseId := generateResponseId (some initialChunk.id)
    model := initialChunk.model
    createdAt := initialChunk.created
    messageStarted := false
    currentOutputIndex := 0
    currentContentIndex := 0
    messageItemId := none
    accumulatedText := ""
    totalAccumulatedText := ""
    accumulatedToolCalls := []
    outputItems := []
    usage := { inputTokens := 0, outputTokens := 0, totalTokens := 0 }
    payload := payload }

/-- parseUsage: the ternary on prompt_tokens_details?.cached_tokens is a
JavaScript truthiness test, so a cached count of zero also yields an
absent input_tokens_details. -/
def parseUsage (u : ChunkUsage) : ResponseUsage :=
  { inputTokens := u.promptTokens
    inputTokensDetails :=
      match u.promptTokensDetails with
      | none => none
      | some d =>
        match d.cachedTokens with
        | none => none
        | some c => if c ≠ 0 then some c else none
    outputTokens := u.completionTokens
    totalTokens := u.totalTokens }

/-- updateUsageFromChunk: overwrite the snapshot when the chunk carries
usage, otherwise leave the state untouched. -/
def updateUsageFromChunk (s : StreamState) (c : ChatCompletionChunk) :
    StreamState :=
  match c.usage with
  | none => s
  | some u => { s with usage := parseUsage u }

/-- buildResponseObject: the aggregate snapshot.  output_text is
totalAccumulatedText when truthy and null otherwise. -/
def buildResponseObject (s : StreamState) (status : String)
    (incompleteDetails : Option String) : ResponseAPIResponse :=
  { id := s.responseId
    status := status
    createdAt := s.createdAt
    model := s.model
    output := s.outputItems
    outputText :=
      if !s.totalAccumulatedText.isEmpty then some s.totalAccumulatedText
      else none
    incompleteDetails := incompleteDetails
    usage := s.usage
    temperature := s.payload.temperature
    topP := s.payload.topP
    maxOutputTokens := s.payload.maxOutputTokens
    tools := s.payload.tools
    toolChoice := s.payload.toolChoice
    truncation := s.payload.truncation
    reasoning := s.payload.reasoning
    metadata := s.payload.metadata }

/-- buildInitialResponse. -/
def buildInitialResponse (s : StreamState) : ResponseAPIResponse :=
  buildResponseObject s "in_progress" none

/-- buildFinalResponse. -/
def buildFinalResponse (s : StreamState) (finishReason : FinishReason) :
    ResponseAPIResponse :=
  buildResponseObject s (mapFinishReasonToStatus (some finishReason))
    (if finishReason = .length then some "max_output_tokens" else none)

/-- startTextMessage: allocate an item id, mark the message started and
emit the output_item.added and content_part.added events. -/
def startTextMessage (s : StreamState) :
    StreamState × List ResponseStreamEvent :=
  let itemId := generateItemId "msg"
  ({ s with messageItemId := some itemId, messageStarted := true },
   [ .outputItemAdded s.currentOutputIndex (.message itemId "in_progress" ""),
     .contentPartAdded itemId s.currentOutputIndex s.currentContentIndex ""])

/-- handleTextDelta: lazily start the message, emit the text delta and
append the fragment to both accumulators. -/
def handleTextDelta (s : StreamState) (content : String) :
    StreamState × List ResponseStreamEvent :=
  let started := if !s.messageStarted then startTextMessage s else (s, [])
  let s1 := started.1
  let itemId := s1.messageItemId.getD ""
  ({ s1 with
      accumulatedText := s1.accumulatedText ++ content
      totalAccumulatedText := s1.totalAccumulatedText ++ content },
   started.2 ++
     [ .outputTextDelta itemId s1.currentOutputIndex s1.currentContentIndex
         content ])

/-- closeTextMessage: emit the output_text.done, content_part.done and
output_item.done events for the open text message, append the completed
message to outputItems, consume the output index and reset
messageStarted and accumulatedText. -/
def closeTextMessage (s : StreamState) :
    StreamState × List ResponseStreamEvent :=
  let itemId := s.messageItemId.getD ""
  let completedMessage := OutputItem.message itemId "completed" s.accumulatedText
  ({ s with
      outputItems := s.outputItems ++ [completedMessage]
      currentOutputIndex := s.currentOutputIndex + 1
      messageStarted := false
      accumulatedText := "" },
   [ .outputTextDone itemId s.currentOutputIndex s.currentContentIndex
       s.accumulatedText,
     .contentPartDone itemId s.currentOutputIndex s.currentContentIndex
       s.accumulatedText,
     .outputItemDone s.currentOutputIndex completedMessage ])

/-- startToolCall: close an open text message first, emit the
output_item.added event for the new call, register the slot and consume
a fresh output index. -/
def startToolCall (s : StreamState) (tc : ToolCallDelta) :
    StreamState × List ResponseStreamEvent :=
  let closed := if s.messageStarted then closeTextMessage s else (s, [])
  let s1 := closed.1
  let toolOutputIndex := s1.currentOutputIndex
  let itemId := generateItemId "fc"
  let toolItem := OutputItem.functionCall itemId (tc.id.getD "")
    (tc.fname.getD "") "" "in_progress"
  ({ s1 with
      accumulatedToolCalls :=
        alistSet s1.accumulatedToolCalls tc.index
          { id := itemId, callId := tc.id.getD "", name := tc.fname.getD ""
            args := "", outputIndex := toolOutputIndex }
      currentOutputIndex := s1.currentOutputIndex + 1 },
   closed.2 ++ [.outputItemAdded toolOutputIndex toolItem])

/-- appendToolArguments: look the slot up; when it is unknown or the
fragment carries no truthy arguments, drop the fragment without any
event or state change. -/
def appendToolArguments (s : StreamState) (tc : ToolCallDelta) :
    StreamState × List ResponseStreamEvent :=
  match alistGet s.accumulatedToolCalls tc.index with
  | none => (s, [])
  | some toolInfo =>
    if !(truthy tc.fargs) then (s, [])
    else
      ({ s with
          accumulatedToolCalls :=
            alistSet s.accumulatedToolCalls tc.index
              { toolInfo with args := toolInfo.args ++ tc.fargs.getD "" } },
       [ .functionCallArgumentsDelta toolInfo.id toolInfo.outputIndex
           (tc.fargs.getD "") ])

/-- One iteration of the handleToolCalls loop: a truthy id and function
name start a new call; truthy argument characters are appended to the
registered slot. -/
def handleToolCallFragment (s : StreamState) (tc : ToolCallDelta) :
    StreamState × List ResponseStreamEvent :=
  let stepA :=
    if truthy tc.id && truthy tc.fname then startToolCall s tc
    else (s, [])
  let stepB :=
    if truthy tc.fargs then appendToolArguments stepA.1 tc
    else (stepA.1, [])
  (stepB.1, stepA.2 ++ stepB.2)

/-- handleToolCalls: process the fragments in order. -/
def handleToolCalls (s : StreamState) (toolCalls : List ToolCallDelta) :
    StreamState × List ResponseStreamEvent :=
  foldSteps handleToolCallFragment s toolCalls

/-- One iteration of the completeToolCalls loop: emit the
function_call_arguments.done and output_item.done events with status
completed for the entry and append the completed item to
outputItems. -/
def completeToolCallEntry (s : StreamState) (info : ToolCallInfo) :
    StreamState × List ResponseStreamEvent :=
  let completedToolCall := OutputItem.functionCall info.id info.callId
    info.name info.args "completed"
  ({ s with outputItems := s.outputItems ++ [completedToolCall] },
   [ .functionCallArgumentsDone info.id info.outputIndex info.args,
     .outputItemDone info.outputIndex completedToolCall ])

/-- completeToolCalls: for every registered slot in insertion order,
finalize the entry. -/
def completeToolCalls (s : StreamState) :
    StreamState × List ResponseStreamEvent :=
  foldSteps (fun t kv => completeToolCallEntry t kv.2) s
    s.accumulatedToolCalls

/-- handleFinish: close an open text message, finalize every registered
tool call, take the chunk's usage, and emit the terminal event — typed
response.incomplete exactly when the finish reason is length and
response.completed otherwise — carrying the full aggregate response. -/
def handleFinish (s : StreamState) (c : ChatCompletionChunk)
    (finishReason : FinishReason) : StreamState × List ResponseStreamEvent :=
  let closed := if s.messageStarted then closeTextMessage s else (s, [])
  let completed := completeToolCalls closed.1
  let s3 := updateUsageFromChunk completed.1 c
  let finalResponse := buildFinalResponse s3 finishReason
  (s3,
   closed.2 ++ completed.2 ++
     [ if finishReason = .length then
         ResponseStreamEvent.responseIncomplete finalResponse
       else ResponseStreamEvent.responseCompleted finalResponse ])

/-- translateChunkToEvents: a chunk with zero choices only updates the
usage snapshot; otherwise only the first choice is read and its text
delta, tool-call fragments and finish reason are handled in that
order. -/
def translateChunkToEvents (c : ChatCompletionChunk) (s : StreamState) :
    StreamState × List ResponseStreamEvent :=
  match c.choices with
  | [] => (updateUsageFromChunk s c, [])
  | choice :: _ =>
    let stepText :=
      if truthy choice.delta.content then
        handleTextDelta s (choice.delta.content.getD "")
      else (s, [])
    let stepTools :=
      match choice.delta.toolCalls with
      | some tcs => handleToolCalls stepText.1 tcs
      | none => (stepText.1, [])
    let stepFinish :=
      match choice.finishReason with
      | some fr => handleFinish stepTools.1 c fr
      | none => (stepTools.1, [])
    (stepFinish.1, stepText.2 ++ stepTools.2 ++ stepFinish.2)

/-- Process a whole sequence of upstream chunks in order, concatenating
the emitted events. -/
def processChunks (s : StreamState) (cs : List ChatCompletionChunk) :
    StreamState × List ResponseStreamEvent :=
  foldSteps (fun t c => translateChunkToEvents c t) s cs

end Responses

namespace Messages

/-- mapOpenAIStopReasonToAnthropic of routes/messages/utils. -/
def mapOpenAIStopReasonToAnthropic : Option FinishReason → Option String
  | none => none
  | some .stop => some "end_turn"
  | some .length => some "max_tokens"
  | some .toolCalls => some "tool_use"
  | some .contentFilter => some "end_turn"

/-- The kind of the currently open Anthropic content block. -/
inductive BlockType where
  | thinking
  | text
  | tool
deriving DecidableEq

/-- The per-slot record of the Anthropic translator's toolCalls map. -/
structure ToolCallInfo where
  id : String
  name : String
  anthropicBlockIndex : Nat
deriving DecidableEq

/-- AnthropicStreamState.  accumulatedReasoningOpaque starts absent and
is cleared back to absent when it is flushed. -/
structure StreamState where
  messageStartSent : Bool
  contentBlockIndex : Nat
  contentBlockOpen : Bool
  contentBlockType : Option BlockType
  toolCalls : List (Nat × ToolCallInfo)
  accumulatedReasoningOpaque : Option String := none
deriving DecidableEq

/-- The content_block_start payload: a thinking block, a text block or a
tool_use block (whose input always starts empty). -/
inductive BlockStart where
  | thinking
  | text
  | toolUse (id : String) (name : String)
deriving DecidableEq

/-- A content_block_delta payload. -/
inductive BlockDelta where
  | thinkingDelta (thinking : String)
  | signatureDelta (signature : String)
  | textDelta (text : String)
  | inputJsonDelta (partialJson : String)
deriving DecidableEq

/-- An Anthropic stream event.  The usage arithmetic of message_start
and message_delta is carried in the events: inputTokens is
prompt_tokens minus cached tokens as a JavaScript number, hence Int. -/
inductive StreamEventData where
  | messageStart (id : String) (model : String) (inputTokens : Int)
      (outputTokens : Nat) (cacheReadInputTokens : Option Nat)
  | contentBlockStart (index : Nat) (contentBlock : BlockStart)
  | contentBlockDelta (index : Nat) (delta : BlockDelta)
  | contentBlockStop (index : Nat)
  | messageDelta (stopReason : Option String) (inputTokens : Int)
      (outputTokens : Nat) (cacheReadInputTokens : Option Nat)
  | messageStop
  | errorEvent (errorType : String) (message : String)
deriving DecidableEq

/-- closeCurrentBlock: when a block is open, flush a truthy accumulated
reasoning signature of a thinking block as one signature_delta, emit
content_block_stop, consume the block index and mark no block open. -/
def closeCurrentBlock (s : StreamState) :
    StreamState × List StreamEventData :=
  if !s.contentBlockOpen then (s, [])
  else
    let flushed :=
      if s.contentBlockType = some .thinking
          && truthy s.accumulatedReasoningOpaque then
        ({ s with accumulatedReasoningOpaque := none },
         [ StreamEventData.contentBlockDelta s.contentBlockIndex
             (.signatureDelta (s.accumulatedReasoningOpaque.getD "")) ])
      else (s, ([] : List StreamEventData))
    ({ flushed.1 with
        contentBlockIndex := flushed.1.contentBlockIndex + 1
        contentBlockOpen := false
        contentBlockType := none },
     flushed.2 ++ [.contentBlockStop s.contentBlockIndex])

/-- The lazily emitted message_start event of the first chunk. -/
def messageStartEvent (c : ChatCompletionChunk) : StreamEventData :=
  .messageStart c.id c.model
    ((((c.usage.map (fun u => u.promptTokens)).getD 0 : Nat) : Int)
      - ((chunkCachedTokens c).getD 0 : Nat))
    0 (chunkCachedTokens c)

/-- Section 1 of translateChunkToAnthropicEvents: reasoning fragments.
When either reasoning field is truthy, a non-thinking current block is
closed and a thinking block opened; truthy thinking text is emitted as
a thinking_delta and a truthy opaque fragment is appended to the
separate signature accumulator. -/
def reasoningPhase (s : StreamState) (delta : ChunkDelta) :
    StreamState × List StreamEventData :=
  if truthy delta.reasoningText || truthy delta.reasoningOpaque then
    let opened :=
      if s.contentBlockType ≠ some .thinking then
        let closed := closeCurrentBlock s
        ({ closed.1 with
            contentBlockOpen := true
            contentBlockType := some .thinking },
         closed.2 ++
           [.contentBlockStart closed.1.contentBlockIndex .thinking])
      else (s, [])
    let textEvents :=
      if truthy delta.reasoningText then
        [ StreamEventData.contentBlockDelta opened.1.contentBlockIndex
            (.thinkingDelta (delta.reasoningText.getD "")) ]
      else []
    let s2 :=
      if truthy delta.reasoningOpaque then
        { opened.1 with
            accumulatedReasoningOpaque :=
              some ((opened.1.accumulatedReasoningOpaque.getD "")
                ++ delta.reasoningOpaque.getD "") }
      else opened.1
    (s2, opened.2 ++ textEvents)
  else (s, [])

/-- Section 2 of translateChunkToAnthropicEvents: a truthy text
fragment closes a thinking or tool block, lazily opens a text block and
emits the text_delta. -/
def textPhase (s : StreamState) (delta : ChunkDelta) :
    StreamState × List StreamEventData :=
  if truthy delta.content then
    let afterThinking :=
      if s.contentBlockType = some .thinking then closeCurrentBlock s
      else (s, [])
    let afterTool :=
      if afterThinking.1.contentBlockType = some .tool then
        let closed := closeCurrentBlock afterThinking.1
        (closed.1, afterThinking.2 ++ closed.2)
      else afterThinking
    let opened :=
      if !afterTool.1.contentBlockOpen then
        ({ afterTool.1 with
            contentBlockOpen := true
            contentBlockType := some .text },
         afterTool.2 ++
           [.contentBlockStart afterTool.1.contentBlockIndex .text])
      else afterTool
    (opened.1,
     opened.2 ++
       [ .contentBlockDelta opened.1.contentBlockIndex
           (.textDelta (delta.content.getD "")) ])
  else (s, [])

/-- Section 3 of translateChunkToAnthropicEvents: tool-call fragments.
A fragment with truthy id and name closes any open block, registers the
slot and starts a tool_use block; truthy argument characters are
emitted as an input_json_delta against the registered slot and silently
dropped when the slot is unknown. -/
def toolPhaseFragment (s : StreamState) (tc : ToolCallDelta) :
    StreamState × List StreamEventData :=
  let started :=
    if truthy tc.id && truthy tc.fname then
      let closed :=
        if s.contentBlockOpen then closeCurrentBlock s
        else (s, [])
      let idx := closed.1.contentBlockIndex
      ({ closed.1 with
          toolCalls :=
            alistSet closed.1.toolCalls tc.index
              { id := tc.id.getD "", name := tc.fname.getD ""
                anthropicBlockIndex := idx }
          contentBlockOpen := true
          contentBlockType := some .tool },
       closed.2 ++
         [.contentBlockStart idx (.toolUse (tc.id.getD "") (tc.fname.getD ""))])
    else (s, [])
  let argEvents :=
    if truthy tc.fargs then
      match alistGet started.1.toolCalls tc.index with
      | some info =>
        [ StreamEventData.contentBlockDelta info.anthropicBlockIndex
            (.inputJsonDelta (tc.fargs.getD "")) ]
      | none => []
    else []
  (started.1, started.2 ++ argEvents)

/-- Section 3 loop of translateChunkToAnthropicEvents: process the
fragments in order. -/
def toolPhase (s : StreamState) (toolCalls : List ToolCallDelta) :
    StreamState × List StreamEventData :=
  foldSteps toolPhaseFragment s toolCalls

/-- The finish section of translateChunkToAnthropicEvents: close any
open block, then emit message_delta with the mapped stop reason and the
chunk's usage, followed by message_stop. -/
def finishPhase (s : StreamState) (c : ChatCompletionChunk)
    (finishReason : FinishReason) : StreamState × List StreamEventData :=
  let closed := if s.contentBlockOpen then closeCurrentBlock s else (s, [])
  (closed.1,
   closed.2 ++
     [ .messageDelta (mapOpenAIStopReasonToAnthropic (some finishReason))
         ((((c.usage.map (fun u => u.promptTokens)).getD 0 : Nat) : Int)
           - ((chunkCachedTokens c).getD 0 : Nat))
         ((c.usage.map (fun u => u.completionTokens)).getD 0)
         (chunkCachedTokens c),
       .messageStop ])

/-- translateChunkToAnthropicEvents: a chunk with zero choices produces
nothing; otherwise message_start is emitted lazily once and the
reasoning, text, tool-call and finish sections run in order on the
first choice. -/
def translateChunkToAnthropicEvents (c : ChatCompletionChunk)
    (s : StreamState) : StreamState × List StreamEventData :=
  match c.choices with
  | [] => (s, [])
  | choice :: _ =>
    let startStep :=
      if !s.messageStartSent then
        ({ s with messageStartSent := true }, [messageStartEvent c])
      else (s, [])
    let stepReasoning := reasoningPhase startStep.1 choice.delta
    let stepText := textPhase stepReasoning.1 choice.delta
    let stepTools :=
      match choice.delta.toolCalls with
      | some tcs => toolPhase stepText.1 tcs
      | none => (stepText.1, [])
    let stepFinish :=
      match choice.finishReason with
      | some fr => finishPhase stepTools.1 c fr
      | none => (stepTools.1, [])
    (stepFinish.1,
     startStep.2 ++ stepReasoning.2 ++ stepText.2 ++ stepTools.2
       ++ stepFinish.2)

/-- translateErrorToAnthropicErrorEvent. -/
def translateErrorToAnthropicErrorEvent : StreamEventData :=
  .errorEvent "api_error" "An unexpected error occurred during streaming."

end Messages

namespace Gemini

/-- mapOpenAIFinishReasonToGemini of routes/gemini/utils. -/
def mapOpenAIFinishReasonToGemini : Option FinishReason → String
  | none => "FINISH_REASON_UNSPECIFIED"
  | some .stop => "STOP"
  | some .length => "MAX_TOKENS"
  | some .toolCalls => "STOP"
  | some .contentFilter => "SAFETY"

/-- A Gemini response part: a text part or a functionCall part.  The
source parses the accumulated argument string with JSON.parse (falling
back to an empty object); the raw accumulated string is carried here
since JSON decoding is orthogonal to the translation logic. -/
inductive GeminiPart where
  | text (text : String)
  | functionCall (id : String) (name : String) (argsRaw : String)
deriving DecidableEq

/-- Whether a part is a functionCall part. -/
def GeminiPart.isFunctionCall : GeminiPart → Bool
  | .functionCall _ _ _ => true
  | .text _ => false

/-- The per-slot record of accumulatedFunctionCalls. -/
structure FunctionCallInfo where
  id : String
  name : String
  args : String
deriving DecidableEq

/-- GeminiStreamState. -/
structure StreamState where
  accumulatedFunctionCalls : List (Nat × FunctionCallInfo)
  model : String
deriving DecidableEq

/-- GeminiUsageMetadata. -/
structure UsageMetadata where
  promptTokenCount : Nat
  candidatesTokenCount : Nat
  totalTokenCount : Nat
  cachedContentTokenCount : Option Nat
deriving DecidableEq

/-- One candidate: content is the model-role part list when present. -/
structure Candidate where
  content : Option (List GeminiPart)
  finishReason : Option String := none
  index : Nat
deriving DecidableEq

/-- GeminiGenerateContentResponse. -/
structure GenerateContentResponse where
  candidates : List Candidate
  usageMetadata : Option UsageMetadata := none
  modelVersion : Option String := none
deriving DecidableEq

/-- createStreamState of routes/gemini/stream-translation. -/
def createStreamState (model : String) : StreamState :=
  { accumulatedFunctionCalls := [], model := model }

/-- buildTextParts: a truthy content fragment becomes one text part. -/
def buildTextParts (content : Option String) : List GeminiPart :=
  if truthy content then [.text (content.getD "")] else []

/-- One iteration of the accumulateToolCalls loop: a fragment with
truthy id and name registers a new call (seeding its arguments with the
fragment's own arguments or the empty string); otherwise truthy
argument characters are appended to the registered slot and dropped
when the slot is unknown. -/
def accumulateToolCall (st : StreamState) (tc : ToolCallDelta) :
    StreamState :=
  if truthy tc.id && truthy tc.fname then
    { st with
        accumulatedFunctionCalls :=
          alistSet st.accumulatedFunctionCalls tc.index
            { id := tc.id.getD "", name := tc.fname.getD ""
              args := tc.fargs.getD "" } }
  else if truthy tc.fargs then
    match alistGet st.accumulatedFunctionCalls tc.index with
    | some fc =>
      { st with
          accumulatedFunctionCalls :=
            alistSet st.accumulatedFunctionCalls tc.index
              { fc with args := fc.args ++ tc.fargs.getD "" } }
    | none => st
  else st

/-- accumulateToolCalls: process the fragments in order. -/
def accumulateToolCalls (toolCalls : Option (List ToolCallDelta))
    (s : StreamState) : StreamState :=
  match toolCalls with
  | none => s
  | some tcs => tcs.foldl accumulateToolCall s

/-- buildUsageMetadata. -/
def buildUsageMetadata (c : ChatCompletionChunk) : UsageMetadata :=
  { promptTokenCount := (c.usage.map (fun u => u.promptTokens)).getD 0
    candidatesTokenCount := (c.usage.map (fun u => u.completionTokens)).getD 0
    totalTokenCount := (c.usage.map (fun u => u.totalTokens)).getD 0
    cachedContentTokenCount := chunkCachedTokens c }

/-- buildFunctionCallResponse: one candidate whose parts are exactly the
accumulated function calls in insertion order. -/
def buildFunctionCallResponse (finishReason : String)
    (usage : UsageMetadata) (s : StreamState) : GenerateContentResponse :=
  { candidates :=
      [ { content :=
            some (s.accumulatedFunctionCalls.map
              (fun kv => GeminiPart.functionCall kv.2.id kv.2.name kv.2.args))
          finishReason := some finishReason
          index := 0 } ]
    usageMetadata := some usage
    modelVersion := some s.model }

/-- buildTextResponse: one candidate carrying the text parts, or no
content member when there are none. -/
def buildTextResponse (parts : List GeminiPart) (finishReason : String)
    (usage : UsageMetadata) (model : String) : GenerateContentResponse :=
  { candidates :=
      [ { content := if parts.length > 0 then some parts else none
          finishReason := some finishReason
          index := 0 } ]
    usageMetadata := some usage
    modelVersion := some model }

/-- buildFinalChunk: with at least one accumulated function call the
final chunk is the function-call response (the text parts of the finish
chunk are discarded); otherwise it is the text response. -/
def buildFinalChunk (finishReason : FinishReason)
    (textParts : List GeminiPart) (c : ChatCompletionChunk)
    (s : StreamState) : GenerateContentResponse :=
  let usage := buildUsageMetadata c
  let geminiFinishReason := mapOpenAIFinishReasonToGemini (some finishReason)
  if s.accumulatedFunctionCalls.length > 0 then
    buildFunctionCallResponse geminiFinishReason usage s
  else
    buildTextResponse textParts geminiFinishReason usage s.model

/-- buildContentChunk: a chunk with no parts is suppressed entirely. -/
def buildContentChunk (parts : List GeminiPart) :
    Option GenerateContentResponse :=
  if parts.length = 0 then none
  else
    some
      { candidates := [{ content := some parts, index := 0 }] }

/-- translateChunkToGeminiResponse: a chunk with zero choices produces
nothing; otherwise text parts are built, tool-call fragments are
accumulated, and a finish reason triggers the final chunk while a
regular chunk is forwarded (or suppressed when empty). -/
def translateChunkToGeminiResponse (c : ChatCompletionChunk)
    (s : StreamState) : StreamState × Option GenerateContentResponse :=
  match c.choices with
  | [] => (s, none)
  | choice :: _ =>
    let textParts := buildTextParts choice.delta.content
    let s1 := accumulateToolCalls choice.delta.toolCalls s
    match choice.finishReason with
    | some fr => (s1, some (buildFinalChunk fr textParts c s1))
    | none => (s1, buildContentChunk textParts)

end Gemini

/-! Concrete sample inputs used to instantiate the verified statements. -/

/-- A sample Response-API request payload. -/
def samplePayload : Responses.ResponseAPIPayload := { model := "gpt-4" }

/-- A sample first upstream chunk carrying only identity fields. -/
def sampleInitChunk : ChatCompletionChunk :=
  { id := "chatcmpl-1", model := "gpt-4", created := 1234567890, choices := [] }

/-- An upstream chunk carrying one text fragment. -/
def textChunk (t : String) : ChatCompletionChunk :=
  { id := "chatcmpl-1", model := "gpt-4", created := 1234567890
    choices := [{ delta := { content := some t } }] }

/-- An upstream chunk carrying only a finish reason. -/
def finishChunk (fr : FinishReason) : ChatCompletionChunk :=
  { id := "chatcmpl-1", model := "gpt-4", created := 1234567890
    choices := [{ delta := {}, finishReason := some fr }] }

/-- A sample Response-API stream state with an open text block that has
received no delta yet. -/
def sampleOpenState : Responses.StreamState :=
  { responseId := "resp_chatcmpl-1", model := "gpt-4"
    createdAt := 1234567890, messageStarted := true
    currentOutputIndex := 0, currentContentIndex := 0
    messageItemId := some "msg_1", accumulatedText := ""
    totalAccumulatedText := "", accumulatedToolCalls := []
    outputItems := []
    usage := { inputTokens := 0, outputTokens := 0, totalTokens := 0 }
    payload := samplePayload }

/-- An upstream chunk starting one tool call (id and name, no
arguments) at the given slot. -/
def toolStartChunk (idx : Nat) (callId fname : String) :
    ChatCompletionChunk :=
  { id := "chatcmpl-1", model := "gpt-4", created := 1234567890
    choices :=
      [ { delta :=
            { toolCalls :=
                some [{ index := idx, id := some callId, fname := some fname }] } } ] }

/-! The claims. -/

/-- C7: a chunk whose choices list is empty produces no outbound events
in any of the three translators and performs no block transition: the
Response-API translator changes at most the usage snapshot (overwritten
exactly when the chunk carries usage), and the Anthropic and Gemini
translators leave their state untouched. -/
theorem c7_empty_choices_only_usage (ident mdl : String) (created : Nat)
    (usage : Option ChunkUsage)
    (sR : Responses.StreamState) (sA : Messages.StreamState)
    (sG : Gemini.StreamState) :
    (Responses.translateChunkToEvents ⟨ident, mdl, created, [], usage⟩ sR
      = ({ sR with
            usage :=
              match usage with
              | some u => Responses.parseUsage u
              | none => sR.usage }, []))
    ∧ (Messages.translateChunkToAnthropicEvents
        ⟨ident, mdl, created, [], usage⟩ sA = (sA, []))
    ∧ (Gemini.translateChunkToGeminiResponse
        ⟨ident, mdl, created, [], usage⟩ sG = (sG, none)) := by
  refine ⟨?_, rfl, rfl⟩
  cases usage <;>
    simp [Responses.translateChunkToEvents, Responses.updateUsageFromChunk]

/-- C9: all three stream translators read only the first choice of a
chunk: replacing every choice beyond index 0 with anything else leaves
the produced events and the resulting state unchanged. -/
theorem c9_only_first_choice_read (ident mdl : String) (created : Nat)
    (usage : Option ChunkUsage) (choice : ChunkChoice)
    (rest rest' : List ChunkChoice)
    (sR : Responses.StreamState) (sA : Messages.StreamState)
    (sG : Gemini.StreamState) :
    (Responses.translateChunkToEvents
        ⟨ident, mdl, created, choice :: rest, usage⟩ sR
      = Responses.translateChunkToEvents
          ⟨ident, mdl, created, choice :: rest', usage⟩ sR)
    ∧ (Messages.translateChunkToAnthropicEvents
        ⟨ident, mdl, created, choice :: rest, usage⟩ sA
      = Messages.translateChunkToAnthropicEvents
          ⟨ident, mdl, created, choice :: rest', usage⟩ sA)
    ∧ (Gemini.translateChunkToGeminiResponse
        ⟨ident, mdl, created, choice :: rest, usage⟩ sG
      = Gemini.translateChunkToGeminiResponse
          ⟨ident, mdl, created, choice :: rest', usage⟩ sG) :=
  ⟨rfl, rfl, rfl⟩

/-- C3 counterexample: a finish chunk with reason content_filter yields
a terminal event of the completed kind whose embedded aggregate
response carries status incomplete, not completed — refuting the claim
that every non-length finish reason gives the terminal event a
completed status. -/
theorem c3_counterexample_content_filter :
    Responses.mapFinishReasonToStatus (some .contentFilter) ≠ "completed"
    ∧ ∃ r : Responses.ResponseAPIResponse,
        (Responses.translateChunkToEvents (finishChunk .contentFilter)
            (Responses.createStreamState samplePayload sampleInitChunk)).2
          = [Responses.ResponseStreamEvent.responseCompleted r]
        ∧ r.status = "incomplete" := by
  refine ⟨by decide,
    ⟨Responses.buildFinalResponse
      (Responses.translateChunkToEvents (finishChunk .contentFilter)
        (Responses.createStreamState samplePayload sampleInitChunk)).1
      .contentFilter, rfl, rfl⟩⟩

/-- C3 amended: the terminal event's kind is response.incomplete
exactly when the finish reason is length and response.completed for
every other non-null finish reason; the aggregate response embedded in
that event carries status completed only for the reasons stop and
tool_calls, status incomplete for both length and content_filter, and
an incomplete_details reason only for length. -/
theorem c3_terminal_event_kind_and_status (ident mdl : String)
    (created : Nat) (usage : Option ChunkUsage) (delta : ChunkDelta)
    (rest : List ChunkChoice) (fr : FinishReason)
    (s : Responses.StreamState) :
    ∃ r : Responses.ResponseAPIResponse,
      (Responses.translateChunkToEvents
          ⟨ident, mdl, created, ⟨delta, some fr⟩ :: rest, usage⟩ s).2.getLast?
        = some
            (if fr = .length then
              Responses.ResponseStreamEvent.responseIncomplete r
            else Responses.ResponseStreamEvent.responseCompleted r)
      ∧ r.status
        = (if fr = .stop ∨ fr = .toolCalls then "completed" else "incomplete")
      ∧ r.incompleteDetails
        = (if fr = .length then some "max_output_tokens" else none) := by
  refine ⟨Responses.buildFinalResponse
      (Responses.translateChunkToEvents
        ⟨ident, mdl, created, ⟨delta, some fr⟩ :: rest, usage⟩ s).1 fr,
    ?_, ?_, ?_⟩
  · simp only [Responses.translateChunkToEvents, Responses.handleFinish]
    rw [List.getLast?_append_of_ne_nil, List.getLast?_append_of_ne_nil]
    · rfl
    · simp
    · simp
  · cases fr <;> simp [Responses.buildFinalResponse,
      Responses.buildResponseObject, Responses.mapFinishReasonToStatus]
  · cases fr <;> simp [Responses.buildFinalResponse,
      Responses.buildResponseObject]

/-- Checker for the placement of signature deltas: every
signature_delta event in the list is immediately followed by the
content_block_stop event of the same block index.  In particular a
signature_delta can never stand between two thinking-text deltas, and
never ends a chunk's event list without its block close. -/
def sigOk : List Messages.StreamEventData → Bool
  | [] => true
  | e :: rest =>
    match e with
    | .contentBlockDelta i (.signatureDelta _) =>
      (match rest with
       | .contentBlockStop j :: _ => i == j
       | _ => false)
      && sigOk rest
    | _ => sigOk rest

/-- Concatenating two signature-well-placed event lists is
signature-well-placed: the checker rejects a trailing signature delta,
so the boundary is safe. -/
theorem sigOk_append (a b : List Messages.StreamEventData)
    (ha : sigOk a = true) (hb : sigOk b = true) :
    sigOk (a ++ b) = true := by
  induction a with
  | nil => simpa using hb
  | cons e a' ih =>
    cases e
    case contentBlockDelta i d =>
      cases d
      case signatureDelta sg =>
        cases a'
        case nil => simp [sigOk] at ha
        case cons e2 a'' =>
          cases e2
          case contentBlockStop j =>
            simp only [List.cons_append, sigOk, Bool.and_eq_true] at ha ⊢
            exact ⟨ha.1, ih ha.2⟩
          all_goals simp [sigOk] at ha
      all_goals
        simp only [List.cons_append, sigOk] at ha ⊢
        exact ih ha
    all_goals
      simp only [List.cons_append, sigOk] at ha ⊢
      exact ih ha

/-- Closing the current block only emits signature deltas immediately
before the matching stop event. -/
theorem closeCurrentBlock_sigOk (s : Messages.StreamState) :
    sigOk (Messages.closeCurrentBlock s).2 = true := by
  unfold Messages.closeCurrentBlock
  split
  · rfl
  · split <;> simp [sigOk]

/-- The reasoning section only emits signature deltas immediately
before the matching stop event. -/
theorem reasoningPhase_sigOk (s : Messages.StreamState)
    (delta : ChunkDelta) :
    sigOk (Messages.reasoningPhase s delta).2 = true := by
  unfold Messages.reasoningPhase
  repeat' first
    | apply sigOk_append
    | split
  all_goals first
    | rfl
    | exact closeCurrentBlock_sigOk _
    | simp [sigOk]

/-- The text section only emits signature deltas immediately before the
matching stop event. -/
theorem textPhase_sigOk (s : Messages.StreamState) (delta : ChunkDelta) :
    sigOk (Messages.textPhase s delta).2 = true := by
  unfold Messages.textPhase
  repeat' first
    | apply sigOk_append
    | split
  all_goals first
    | rfl
    | exact closeCurrentBlock_sigOk _
    | simp [sigOk]

/-- One tool-call fragment only emits signature deltas immediately
before the matching stop event. -/
theorem toolPhaseFragment_sigOk (s : Messages.StreamState)
    (tc : ToolCallDelta) :
    sigOk (Messages.toolPhaseFragment s tc).2 = true := by
  unfold Messages.toolPhaseFragment
  repeat' first
    | apply sigOk_append
    | split
  all_goals first
    | rfl
    | exact closeCurrentBlock_sigOk _
    | simp [sigOk]

/-- The whole tool section only emits signature deltas immediately
before the matching stop event. -/
theorem toolPhase_sigOk (s : Messages.StreamState)
    (tcs : List ToolCallDelta) :
    sigOk (Messages.toolPhase s tcs).2 = true := by
  exact foldSteps_events_prop Messages.toolPhaseFragment
    (fun l => sigOk l = true) rfl sigOk_append toolPhaseFragment_sigOk s tcs

/-- The finish section only emits signature deltas immediately before
the matching stop event. -/
theorem finishPhase_sigOk (s : Messages.StreamState)
    (c : ChatCompletionChunk) (fr : FinishReason) :
    sigOk (Messages.finishPhase s c fr).2 = true := by
  unfold Messages.finishPhase
  repeat' first
    | apply sigOk_append
    | split
  all_goals first
    | rfl
    | exact closeCurrentBlock_sigOk _
    | simp [sigOk]

/-- C4: in every event list produced by the Anthropic-style translator
every signature_delta stands immediately before the content_block_stop
of the same block (so it is never interleaved with thinking-text
deltas); and closing an open thinking block with a truthy accumulated
signature emits exactly one signature_delta followed directly by the
stop event, clearing the signature accumulator. -/
theorem c4_signature_flushed_before_stop :
    (∀ (c : ChatCompletionChunk) (s : Messages.StreamState),
        sigOk (Messages.translateChunkToAnthropicEvents c s).2 = true)
    ∧ (∀ s : Messages.StreamState,
        s.contentBlockOpen = true →
        s.contentBlockType = some .thinking →
        truthy s.accumulatedReasoningOpaque = true →
        (Messages.closeCurrentBlock s).2
          = [ .contentBlockDelta s.contentBlockIndex
                (.signatureDelta (s.accumulatedReasoningOpaque.getD "")),
              .contentBlockStop s.contentBlockIndex ]
        ∧ (Messages.closeCurrentBlock s).1.accumulatedReasoningOpaque
          = none) := by
  constructor
  · intro c s
    cases hch : c.choices with
    | nil =>
      have hstate : (Messages.translateChunkToAnthropicEvents c s).2 = [] := by
        unfold Messages.translateChunkToAnthropicEvents
        rw [hch]
      rw [hstate]
      rfl
    | cons choice rest =>
      have hstate : sigOk (Messages.translateChunkToAnthropicEvents c s).2
          = sigOk
            ((if !s.messageStartSent then
                ({ s with messageStartSent := true },
                 [Messages.messageStartEvent c])
              else (s, [])).2
              ++ (Messages.reasoningPhase
                    (if !s.messageStartSent then
                      ({ s with messageStartSent := true },
                       [Messages.messageStartEvent c])
                    else (s, [])).1 choice.delta).2
              ++ (Messages.textPhase
                    (Messages.reasoningPhase
                      (if !s.messageStartSent then
                        ({ s with messageStartSent := true },
                         [Messages.messageStartEvent c])
                      else (s, [])).1 choice.delta).1 choice.delta).2
              ++ (match choice.delta.toolCalls with
                   | some tcs =>
                     Messages.toolPhase
                       (Messages.textPhase
                         (Messages.reasoningPhase
                           (if !s.messageStartSent then
                             ({ s with messageStartSent := true },
                              [Messages.messageStartEvent c])
                           else (s, [])).1 choice.delta).1 choice.delta).1
                       tcs
                   | none =>
                     ((Messages.textPhase
                         (Messages.reasoningPhase
                           (if !s.messageStartSent then
                             ({ s with messageStartSent := true },
                              [Messages.messageStartEvent c])
                           else (s, [])).1 choice.delta).1 choice.delta).1,
                      [])).2
              ++ (match choice.finishReason with
                  | some fr =>
                    Messages.finishPhase
                      (match choice.delta.toolCalls with
                       | some tcs =>
                         Messages.toolPhase
                           (Messages.textPhase
                             (Messages.reasoningPhase
                               (if !s.messageStartSent then
                                 ({ s with messageStartSent := true },
                                  [Messages.messageStartEvent c])
                               else (s, [])).1 choice.delta).1
                             choice.delta).1 tcs
                       | none =>
                         ((Messages.textPhase
                             (Messages.reasoningPhase
                               (if !s.messageStartSent then
                                 ({ s with messageStartSent := true },
                                  [Messages.messageStartEvent c])
                               else (s, [])).1 choice.delta).1
                             choice.delta).1, [])).1 c fr
                  | none =>
                    ((match choice.delta.toolCalls with
                      | some tcs =>
                        Messages.toolPhase
                          (Messages.textPhase
                            (Messages.reasoningPhase
                              (if !s.messageStartSent then
                                ({ s with messageStartSent := true },
                                 [Messages.messageStartEvent c])
                              else (s, [])).1 choice.delta).1
                            choice.delta).1 tcs
                      | none =>
                        ((Messages.textPhase
                            (Messages.reasoningPhase
                              (if !s.messageStartSent then
                                ({ s with messageStartSent := true },
                                 [Messages.messageStartEvent c])
                              else (s, [])).1 choice.delta).1
                            choice.delta).1, [])).1, [])).2) := by
        unfold Messages.translateChunkToAnthropicEvents
        rw [hch]
      rw [hstate]
      apply sigOk_append
      · apply sigOk_append
        · apply sigOk_append
          · apply sigOk_append
            · split <;> simp [sigOk, Messages.messageStartEvent]
            · exact reasoningPhase_sigOk _ _
          · exact textPhase_sigOk _ _
        · cases choice.delta.toolCalls with
          | some tcs => exact toolPhase_sigOk _ tcs
          | none => rfl
      · cases choice.finishReason with
        | some fr => exact finishPhase_sigOk _ c fr
        | none => rfl
  · intro s hopen hthink hsig
    unfold Messages.closeCurrentBlock
    rw [hopen, hthink]
    simp only [hsig]
    exact ⟨by simp, rfl⟩

/-- C4 witness. -/
theorem c4_witness :
    sigOk (Messages.translateChunkToAnthropicEvents (finishChunk .stop)
        ⟨true, 2, true, some .thinking, [], some "sig-data"⟩).2 = true
    ∧ (Messages.closeCurrentBlock
        ⟨true, 2, true, some .thinking, [], some "sig-data"⟩).2
      = [ .contentBlockDelta 2 (.signatureDelta "sig-data"),
          .contentBlockStop 2 ] :=
  ⟨c4_signature_flushed_before_stop.1 (finishChunk .stop)
      ⟨true, 2, true, some .thinking, [], some "sig-data"⟩,
   (c4_signature_flushed_before_stop.2
      ⟨true, 2, true, some .thinking, [], some "sig-data"⟩ rfl rfl rfl).1⟩

/-- The no-leak invariant of the Response-API stream state: accumulated
text is non-empty only while a text message is open. -/
def RInv (s : Responses.StreamState) : Prop :=
  s.messageStarted = false → s.accumulatedText = ""

/-- Closing a text message always resets messageStarted and
accumulatedText. -/
theorem closeTextMessage_resets (s : Responses.StreamState) :
    (Responses.closeTextMessage s).1.accumulatedText = ""
    ∧ (Responses.closeTextMessage s).1.messageStarted = false :=
  ⟨rfl, rfl⟩

/-- startToolCall leaves the no-leak invariant intact: it closes any
open text message first. -/
theorem startToolCall_inv (s : Responses.StreamState) (tc : ToolCallDelta)
    (h : RInv s) : RInv (Responses.startToolCall s tc).1 := by
  unfold Responses.startToolCall RInv
  split <;> intro _ <;> first
    | rfl
    | exact h (by assumption)

/-- appendToolArguments never touches messageStarted or
accumulatedText. -/
theorem appendToolArguments_fields (s : Responses.StreamState)
    (tc : ToolCallDelta) :
    (Responses.appendToolArguments s tc).1.messageStarted = s.messageStarted
    ∧ (Responses.appendToolArguments s tc).1.accumulatedText
      = s.accumulatedText := by
  unfold Responses.appendToolArguments
  split
  · exact ⟨rfl, rfl⟩
  · split
    · exact ⟨rfl, rfl⟩
    · exact ⟨rfl, rfl⟩

/-- One tool-call fragment preserves the no-leak invariant. -/
theorem handleToolCallFragment_inv (s : Responses.StreamState)
    (tc : ToolCallDelta) (h : RInv s) :
    RInv (Responses.handleToolCallFragment s tc).1 := by
  have hA : RInv (if truthy tc.id && truthy tc.fname then
      Responses.startToolCall s tc else (s, [])).1 := by
    split
    · exact startToolCall_inv s tc h
    · exact h
  show RInv (if truthy tc.fargs then
      Responses.appendToolArguments
        (if truthy tc.id && truthy tc.fname then
          Responses.startToolCall s tc else (s, [])).1 tc
    else ((if truthy tc.id && truthy tc.fname then
          Responses.startToolCall s tc else (s, [])).1, [])).1
  split
  · intro hpost
    rcases appendToolArguments_fields
      (if truthy tc.id && truthy tc.fname then
        Responses.startToolCall s tc else (s, [])).1 tc with ⟨h1, h2⟩
    rw [h2]
    rw [h1] at hpost
    exact hA hpost
  · exact hA

/-- Completing the registered tool calls never touches messageStarted
or accumulatedText. -/
theorem completeToolCalls_fields (s : Responses.StreamState) :
    (Responses.completeToolCalls s).1.messageStarted = s.messageStarted
    ∧ (Responses.completeToolCalls s).1.accumulatedText
      = s.accumulatedText := by
  show (foldSteps (fun t kv => Responses.completeToolCallEntry t kv.2) s
      s.accumulatedToolCalls).1.messageStarted = s.messageStarted
    ∧ (foldSteps (fun t kv => Responses.completeToolCallEntry t kv.2) s
      s.accumulatedToolCalls).1.accumulatedText = s.accumulatedText
  exact foldSteps_state_inv
    (fun (t : Responses.StreamState) (kv : Nat × Responses.ToolCallInfo) =>
      Responses.completeToolCallEntry t kv.2)
    (fun t => t.messageStarted = s.messageStarted
      ∧ t.accumulatedText = s.accumulatedText)
    (fun t kv ht => ⟨ht.1, ht.2⟩) s _ ⟨rfl, rfl⟩

/-- Taking usage from a chunk never touches messageStarted or
accumulatedText. -/
theorem updateUsageFromChunk_fields (s : Responses.StreamState)
    (c : ChatCompletionChunk) :
    (Responses.updateUsageFromChunk s c).messageStarted = s.messageStarted
    ∧ (Responses.updateUsageFromChunk s c).accumulatedText
      = s.accumulatedText := by
  unfold Responses.updateUsageFromChunk
  cases c.usage <;> exact ⟨rfl, rfl⟩

/-- handleFinish preserves the no-leak invariant. -/
theorem handleFinish_inv (s : Responses.StreamState)
    (c : ChatCompletionChunk) (fr : FinishReason) (h : RInv s) :
    RInv (Responses.handleFinish s c fr).1 := by
  have hclosed : RInv (if s.messageStarted then
      Responses.closeTextMessage s else (s, [])).1 := by
    split
    · intro _; exact (closeTextMessage_resets s).1
    · exact h
  have h1 := completeToolCalls_fields
    (if s.messageStarted then Responses.closeTextMessage s else (s, [])).1
  have h2 := updateUsageFromChunk_fields
    (Responses.completeToolCalls
      (if s.messageStarted then Responses.closeTextMessage s
        else (s, [])).1).1 c
  intro hpost
  show (Responses.updateUsageFromChunk
      (Responses.completeToolCalls
        (if s.messageStarted then Responses.closeTextMessage s
          else (s, [])).1).1 c).accumulatedText = ""
  rw [h2.2, h1.2]
  apply hclosed
  rw [← h1.1, ← h2.1]
  exact hpost

/-- handleTextDelta always leaves the message started. -/
theorem handleTextDelta_started (s : Responses.StreamState)
    (content : String) :
    (Responses.handleTextDelta s content).1.messageStarted = true := by
  unfold Responses.handleTextDelta Responses.startTextMessage
  split
  · rfl
  · next hcond =>
    show s.messageStarted = true
    simpa using hcond

/-- Every chunk preserves the no-leak invariant of the Response-API
translator. -/
theorem translateChunkToEvents_inv (c : ChatCompletionChunk)
    (s : Responses.StreamState) (h : RInv s) :
    RInv (Responses.translateChunkToEvents c s).1 := by
  cases hch : c.choices with
  | nil =>
    have hstate : (Responses.translateChunkToEvents c s).1
        = Responses.updateUsageFromChunk s c := by
      unfold Responses.translateChunkToEvents
      rw [hch]
    rw [hstate]
    intro hpost
    rw [(updateUsageFromChunk_fields s c).2]
    apply h
    rw [← (updateUsageFromChunk_fields s c).1]
    exact hpost
  | cons choice rest =>
    have hstate : (Responses.translateChunkToEvents c s).1
        = (match choice.finishReason with
           | some fr =>
             Responses.handleFinish
               (match choice.delta.toolCalls with
                | some tcs =>
                  Responses.handleToolCalls
                    (if truthy choice.delta.content then
                      Responses.handleTextDelta s
                        (choice.delta.content.getD "")
                    else (s, [])).1 tcs
                | none =>
                  ((if truthy choice.delta.content then
                      Responses.handleTextDelta s
                        (choice.delta.content.getD "")
                    else (s, [])).1, [])).1 c fr
           | none =>
             ((match choice.delta.toolCalls with
               | some tcs =>
                 Responses.handleToolCalls
                   (if truthy choice.delta.content then
                     Responses.handleTextDelta s
                       (choice.delta.content.getD "")
                   else (s, [])).1 tcs
               | none =>
                 ((if truthy choice.delta.content then
                     Responses.handleTextDelta s
                       (choice.delta.content.getD "")
                   else (s, [])).1, [])).1, [])).1 := by
      unfold Responses.translateChunkToEvents
      rw [hch]
    rw [hstate]
    have hText : RInv (if truthy choice.delta.content then
        Responses.handleTextDelta s (choice.delta.content.getD "")
        else (s, [])).1 := by
      split
      · intro hpost
        rw [handleTextDelta_started] at hpost
        cases hpost
      · exact h
    have hTools : RInv (match choice.delta.toolCalls with
        | some tcs =>
          Responses.handleToolCalls
            (if truthy choice.delta.content then
              Responses.handleTextDelta s (choice.delta.content.getD "")
            else (s, [])).1 tcs
        | none =>
          ((if truthy choice.delta.content then
              Responses.handleTextDelta s (choice.delta.content.getD "")
            else (s, [])).1, [])).1 := by
      cases choice.delta.toolCalls with
      | none => exact hText
      | some tcs =>
        exact foldSteps_state_inv _ RInv handleToolCallFragment_inv _ tcs
          hText
    cases choice.finishReason with
    | none => exact hTools
    | some fr => exact handleFinish_inv _ c fr hTools

/-- C2: closing a block always resets the per-block state — after
closeTextMessage the accumulated text is empty and no message is
started; after closeCurrentBlock on an open block no block is open and
the block kind is none — and for every chunk whatsoever the
Response-API translator preserves the invariant that accumulated text
is empty whenever no text block is open, so accumulated text never
leaks into the next block. -/
theorem c2_block_close_resets_state :
    (∀ s : Responses.StreamState,
        (Responses.closeTextMessage s).1.accumulatedText = ""
        ∧ (Responses.closeTextMessage s).1.messageStarted = false)
    ∧ (∀ s : Messages.StreamState, s.contentBlockOpen = true →
        (Messages.closeCurrentBlock s).1.contentBlockOpen = false
        ∧ (Messages.closeCurrentBlock s).1.contentBlockType = none)
    ∧ (∀ (c : ChatCompletionChunk) (s : Responses.StreamState),
        (s.messageStarted = false → s.accumulatedText = "") →
        ((Responses.translateChunkToEvents c s).1.messageStarted = false →
          (Responses.translateChunkToEvents c s).1.accumulatedText = "")) := by
  refine ⟨fun s => closeTextMessage_resets s, fun s hopen => ?_,
    fun c s h => translateChunkToEvents_inv c s h⟩
  unfold Messages.closeCurrentBlock
  rw [hopen]
  exact ⟨rfl, rfl⟩

/-- C2 witness. -/
theorem c2_witness :
    ((Messages.closeCurrentBlock
        ⟨true, 0, true, some .text, [], none⟩).1.contentBlockOpen = false)
    ∧ (Responses.translateChunkToEvents (finishChunk .stop)
        (Responses.createStreamState samplePayload
          sampleInitChunk)).1.accumulatedText = "" := by
  refine ⟨(c2_block_close_resets_state.2.1 _ rfl).1, ?_⟩
  exact c2_block_close_resets_state.2.2 (finishChunk .stop)
    (Responses.createStreamState samplePayload sampleInitChunk)
    (fun _ => rfl) rfl

/-- Concatenation of text fragments in arrival order, exactly as the
accumulators build it (left fold of string append from the empty
string). -/
def concatTexts (l : List String) : String :=
  l.foldl (fun a b => a ++ b) ""

/-- Appending on the right preserves non-emptiness. -/
theorem append_ne_empty_left (a b : String) (h : a ≠ "") : a ++ b ≠ "" := by
  intro hc
  apply h
  have hd : a.data ++ b.data = [] := by
    have := congrArg String.data hc
    simpa using this
  exact String.ext (List.append_eq_nil.mp hd).1

/-- Folding string append over any list preserves non-emptiness of the
seed. -/
theorem foldl_append_ne_empty (ts : List String) : ∀ s : String, s ≠ "" →
    ts.foldl (fun a b => a ++ b) s ≠ "" := by
  induction ts with
  | nil => intro s hs; exact hs
  | cons t ts ih => intro s hs; exact ih (s ++ t) (append_ne_empty_left s t hs)

/-- Concatenating fragments that start with a non-empty one is
non-empty. -/
theorem concatTexts_ne_empty (t : String) (ts : List String) (ht : t ≠ "") :
    concatTexts (t :: ts) ≠ "" := by
  show ts.foldl (fun a b => a ++ b) ("" ++ t) ≠ ""
  apply foldl_append_ne_empty
  intro hc
  apply ht
  rwa [String.empty_append] at hc

/-- Processing a text chunk with no message open starts the message and
appends the fragment to both accumulators. -/
theorem translate_textChunk_first (s : Responses.StreamState) (t : String)
    (hstart : s.messageStarted = false) (ht : t.isEmpty = false) :
    (Responses.translateChunkToEvents (textChunk t) s).1
      = { s with
          messageStarted := true
          messageItemId := some (Responses.generateItemId "msg")
          accumulatedText := s.accumulatedText ++ t
          totalAccumulatedText := s.totalAccumulatedText ++ t } := by
  simp [Responses.translateChunkToEvents, Responses.handleTextDelta,
    Responses.startTextMessage, textChunk, truthy, ht, hstart]

/-- Processing a text chunk while the message is open only appends the
fragment to both accumulators. -/
theorem translate_textChunk_next (s : Responses.StreamState) (t : String)
    (hstart : s.messageStarted = true) (ht : t.isEmpty = false) :
    (Responses.translateChunkToEvents (textChunk t) s).1
      = { s with
          accumulatedText := s.accumulatedText ++ t
          totalAccumulatedText := s.totalAccumulatedText ++ t } := by
  simp [Responses.translateChunkToEvents, Responses.handleTextDelta,
    Responses.startTextMessage, textChunk, truthy, ht, hstart]

/-- Processing a run of non-empty text chunks while the message is open
folds every fragment into the two accumulators and changes nothing
else. -/
theorem foldl_textChunks (ts : List String) : ∀ s : Responses.StreamState,
    s.messageStarted = true → (∀ t ∈ ts, t.isEmpty = false) →
    (ts.map textChunk).foldl
        (fun st c => (Responses.translateChunkToEvents c st).1) s
      = { s with
          accumulatedText := ts.foldl (fun a b => a ++ b) s.accumulatedText
          totalAccumulatedText :=
            ts.foldl (fun a b => a ++ b) s.totalAccumulatedText } := by
  induction ts with
  | nil => intro s _ _; rfl
  | cons t ts ih =>
    intro s hstart hall
    show (ts.map textChunk).foldl
        (fun st c => (Responses.translateChunkToEvents c st).1)
        ((Responses.translateChunkToEvents (textChunk t) s).1) = _
    rw [translate_textChunk_next s t hstart (hall t (by simp))]
    rw [ih { s with
        accumulatedText := s.accumulatedText ++ t
        totalAccumulatedText := s.totalAccumulatedText ++ t }
      hstart (fun x hx => hall x (by simp [hx]))]
    rfl

/-- Processing a finish chunk while a text message is open and no tool
call is registered closes the message, appending it as a completed item
with the accumulated text. -/
theorem translate_finishChunk_state (s : Responses.StreamState)
    (fr : FinishReason) (hStarted : s.messageStarted = true)
    (hTools : s.accumulatedToolCalls = []) :
    (Responses.translateChunkToEvents (finishChunk fr) s).1
      = { s with
          messageStarted := false
          accumulatedText := ""
          currentOutputIndex := s.currentOutputIndex + 1
          outputItems :=
            s.outputItems ++
              [.message (s.messageItemId.getD "") "completed"
                s.accumulatedText] } := by
  simp [Responses.translateChunkToEvents, Responses.handleFinish,
    Responses.closeTextMessage, Responses.completeToolCalls, foldSteps,
    Responses.updateUsageFromChunk, finishChunk, truthy, hStarted, hTools]

/-- C1: for every non-empty sequence of non-empty text deltas followed
by one finish chunk, the final state's outputItems holds exactly one
message item carrying the concatenation of the fragments in arrival
order, and the final aggregate response built at finish time lists that
single item as its output and carries the concatenation as its
output_text. -/
theorem c1_text_only_stream_concatenation
    (payload : Responses.ResponseAPIPayload) (ichunk : ChatCompletionChunk)
    (texts : List String) (fr : FinishReason)
    (hne : texts ≠ []) (hall : ∀ t ∈ texts, t ≠ "") :
    ∃ mid : String,
      (Responses.processChunks
          (Responses.createStreamState payload ichunk)
          (texts.map textChunk ++ [finishChunk fr])).1.outputItems
        = [.message mid "completed" (concatTexts texts)]
      ∧ (Responses.buildFinalResponse
          (Responses.processChunks
            (Responses.createStreamState payload ichunk)
            (texts.map textChunk ++ [finishChunk fr])).1 fr).output
        = [.message mid "completed" (concatTexts texts)]
      ∧ (Responses.buildFinalResponse
          (Responses.processChunks
            (Responses.createStreamState payload ichunk)
            (texts.map textChunk ++ [finishChunk fr])).1 fr).outputText
        = some (concatTexts texts) := by
  obtain ⟨t0, ts, rfl⟩ := List.exists_cons_of_ne_nil hne
  have hallE : ∀ t ∈ t0 :: ts, t.isEmpty = false := fun t ht => by
    simpa using mt (String.isEmpty_iff t).mp (hall t ht)
  have hfst : (Responses.processChunks
      (Responses.createStreamState payload ichunk)
      ((t0 :: ts).map textChunk ++ [finishChunk fr])).1
      = ((t0 :: ts).map textChunk ++ [finishChunk fr]).foldl
          (fun st c => (Responses.translateChunkToEvents c st).1)
          (Responses.createStreamState payload ichunk) :=
    foldSteps_fst _ _ _
  have hsplit : ((t0 :: ts).map textChunk ++ [finishChunk fr]).foldl
        (fun st c => (Responses.translateChunkToEvents c st).1)
        (Responses.createStreamState payload ichunk)
      = (Responses.translateChunkToEvents (finishChunk fr)
          (((t0 :: ts).map textChunk).foldl
            (fun st c => (Responses.translateChunkToEvents c st).1)
            (Responses.createStreamState payload ichunk))).1 := by
    rw [List.foldl_append]
    rfl
  have htext : ((t0 :: ts).map textChunk).foldl
        (fun st c => (Responses.translateChunkToEvents c st).1)
        (Responses.createStreamState payload ichunk)
      = { Responses.createStreamState payload ichunk with
          messageStarted := true
          messageItemId := some (Responses.generateItemId "msg")
          accumulatedText := concatTexts (t0 :: ts)
          totalAccumulatedText := concatTexts (t0 :: ts) } := by
    show (ts.map textChunk).foldl
        (fun st c => (Responses.translateChunkToEvents c st).1)
        ((Responses.translateChunkToEvents (textChunk t0)
          (Responses.createStreamState payload ichunk)).1) = _
    rw [translate_textChunk_first _ t0 rfl (hallE t0 (by simp))]
    rw [foldl_textChunks ts
      { Responses.createStreamState payload ichunk with
        messageStarted := true
        messageItemId := some (Responses.generateItemId "msg")
        accumulatedText :=
          (Responses.createStreamState payload ichunk).accumulatedText ++ t0
        totalAccumulatedText :=
          (Responses.createStreamState payload ichunk).totalAccumulatedText
            ++ t0 }
      rfl (fun x hx => hallE x (by simp [hx]))]
    rfl
  have hfinal : (Responses.processChunks
      (Responses.createStreamState payload ichunk)
      ((t0 :: ts).map textChunk ++ [finishChunk fr])).1
      = { Responses.createStreamState payload ichunk with
          messageStarted := false
          messageItemId := some (Responses.generateItemId "msg")
          accumulatedText := ""
          totalAccumulatedText := concatTexts (t0 :: ts)
          currentOutputIndex := 1
          outputItems :=
            [.message (Responses.generateItemId "msg") "completed"
              (concatTexts (t0 :: ts))] } := by
    rw [hfst, hsplit, htext, translate_finishChunk_state _ fr rfl rfl]
    rfl
  have hnonempty : (concatTexts (t0 :: ts)).isEmpty = false := by
    simpa using
      mt (String.isEmpty_iff (concatTexts (t0 :: ts))).mp
        (concatTexts_ne_empty t0 ts (hall t0 (by simp)))
  refine ⟨Responses.generateItemId "msg", ?_, ?_, ?_⟩
  · rw [hfinal]
  · rw [hfinal]
    rfl
  · rw [hfinal]
    show (if !(concatTexts (t0 :: ts)).isEmpty then
        some (concatTexts (t0 :: ts)) else none) = some (concatTexts (t0 :: ts))
    rw [hnonempty]
    rfl

/-- C1 witness. -/
theorem c1_witness :
    ∃ mid : String,
      (Responses.processChunks
          (Responses.createStreamState samplePayload sampleInitChunk)
          (["Hel", "lo"].map textChunk ++ [finishChunk .stop])).1.outputItems
        = [.message mid "completed" (concatTexts ["Hel", "lo"])]
      ∧ (Responses.buildFinalResponse
          (Responses.processChunks
            (Responses.createStreamState samplePayload sampleInitChunk)
            (["Hel", "lo"].map textChunk ++ [finishChunk .stop])).1
          .stop).output
        = [.message mid "completed" (concatTexts ["Hel", "lo"])]
      ∧ (Responses.buildFinalResponse
          (Responses.processChunks
            (Responses.createStreamState samplePayload sampleInitChunk)
            (["Hel", "lo"].map textChunk ++ [finishChunk .stop])).1
          .stop).outputText
        = some (concatTexts ["Hel", "lo"]) :=
  c1_text_only_stream_concatenation samplePayload sampleInitChunk
    ["Hel", "lo"] .stop (by decide)
    (by intro t ht; fin_cases ht <;> decide)

/-- C5: a finish chunk arriving while a text block is open with empty
accumulated text still closes the block — the first three emitted
events are the output_text.done, content_part.done and
output_item.done events of a completed message with empty text, and
that empty completed message is appended to outputItems.  There is no
skip-if-empty special case on the close path. -/
theorem c5_finish_closes_empty_text_block (ident mdl : String)
    (created : Nat) (usage : Option ChunkUsage) (fr : FinishReason)
    (s : Responses.StreamState) (hStarted : s.messageStarted = true)
    (hEmpty : s.accumulatedText = "")
    (hTools : s.accumulatedToolCalls = []) :
    ((Responses.translateChunkToEvents
        ⟨ident, mdl, created, [{ delta := {}, finishReason := some fr }],
          usage⟩ s).2.take 3
      = [ .outputTextDone (s.messageItemId.getD "") s.currentOutputIndex
            s.currentContentIndex "",
          .contentPartDone (s.messageItemId.getD "") s.currentOutputIndex
            s.currentContentIndex "",
          .outputItemDone s.currentOutputIndex
            (.message (s.messageItemId.getD "") "completed" "") ])
    ∧ (Responses.translateChunkToEvents
        ⟨ident, mdl, created, [{ delta := {}, finishReason := some fr }],
          usage⟩ s).1.outputItems
      = s.outputItems
          ++ [.message (s.messageItemId.getD "") "completed" ""] := by
  cases usage <;>
    simp [Responses.translateChunkToEvents, Responses.handleFinish,
      Responses.closeTextMessage, Responses.completeToolCalls, foldSteps,
      Responses.updateUsageFromChunk, truthy, hStarted, hEmpty, hTools]

/-- C5 witness. -/
theorem c5_witness :
    ((Responses.translateChunkToEvents
        ⟨"chatcmpl-1", "gpt-4", 1234567890,
          [{ delta := {}, finishReason := some .stop }], none⟩
        sampleOpenState).2.take 3
      = [ .outputTextDone "msg_1" 0 0 "",
          .contentPartDone "msg_1" 0 0 "",
          .outputItemDone 0 (.message "msg_1" "completed" "") ])
    ∧ (Responses.translateChunkToEvents
        ⟨"chatcmpl-1", "gpt-4", 1234567890,
          [{ delta := {}, finishReason := some .stop }], none⟩
        sampleOpenState).1.outputItems
      = [.message "msg_1" "completed" ""] :=
  c5_finish_closes_empty_text_block "chatcmpl-1" "gpt-4" 1234567890 none
    .stop sampleOpenState rfl rfl rfl

/-- C6: a tool call registered with id and name that receives no
argument fragments before the finish chunk is finalized with an
arguments-done event and an item-done event carrying status completed
and empty arguments, and exactly one such tool item lands in
outputItems. -/
theorem c6_tool_call_without_args_completed_empty (callId fname : String)
    (idx : Nat) (fr : FinishReason)
    (payload : Responses.ResponseAPIPayload) (ichunk : ChatCompletionChunk)
    (hId : callId ≠ "") (hName : fname ≠ "") :
    ((Responses.translateChunkToEvents (finishChunk fr)
        (Responses.translateChunkToEvents (toolStartChunk idx callId fname)
          (Responses.createStreamState payload ichunk)).1).2.take 2
      = [ .functionCallArgumentsDone (Responses.generateItemId "fc") 0 "",
          .outputItemDone 0
            (.functionCall (Responses.generateItemId "fc") callId fname ""
              "completed") ])
    ∧ (Responses.translateChunkToEvents (finishChunk fr)
        (Responses.translateChunkToEvents (toolStartChunk idx callId fname)
          (Responses.createStreamState payload ichunk)).1).1.outputItems
      = [ .functionCall (Responses.generateItemId "fc") callId fname ""
            "completed" ] := by
  have hId' : callId.isEmpty = false := by
    simpa using mt (String.isEmpty_iff callId).mp hId
  have hName' : fname.isEmpty = false := by
    simpa using mt (String.isEmpty_iff fname).mp hName
  constructor <;>
    simp [Responses.translateChunkToEvents, Responses.handleFinish,
      Responses.handleToolCalls, Responses.handleToolCallFragment,
      Responses.startToolCall, Responses.completeToolCalls,
      Responses.completeToolCallEntry, Responses.createStreamState,
      Responses.updateUsageFromChunk, toolStartChunk, finishChunk,
      foldSteps, truthy, hId', hName', alistSet]

/-- C6 witness. -/
theorem c6_witness :
    ("call-1" : String) ≠ "" ∧ ("get_weather" : String) ≠ ""
    ∧ ((Responses.translateChunkToEvents (finishChunk .toolCalls)
          (Responses.translateChunkToEvents (toolStartChunk 0 "call-1" "get_weather")
            (Responses.createStreamState samplePayload sampleInitChunk)).1).1.outputItems
        = [ .functionCall (Responses.generateItemId "fc") "call-1"
              "get_weather" "" "completed" ]) := by
  refine ⟨by decide, by decide, ?_⟩
  exact
    (c6_tool_call_without_args_completed_empty "call-1" "get_weather" 0
      .toolCalls samplePayload sampleInitChunk (by decide) (by decide)).2

/-- C8: a tool-call argument fragment whose slot was never registered
is silently dropped by both the Response-API and the Anthropic
translator: no event is produced and the state is unchanged (for the
Anthropic translator, once message_start has been sent). -/
theorem c8_unknown_slot_fragment_dropped (ident mdl : String)
    (created : Nat) (usage : Option ChunkUsage) (idx : Nat)
    (args : Option String) (sR : Responses.StreamState)
    (sA : Messages.StreamState)
    (hR : alistGet sR.accumulatedToolCalls idx = none)
    (hA : alistGet sA.toolCalls idx = none)
    (hStart : sA.messageStartSent = true) :
    (Responses.translateChunkToEvents
        ⟨ident, mdl, created,
          [{ delta := { toolCalls := some [{ index := idx, fargs := args }] } }],
          usage⟩ sR
      = (sR, []))
    ∧ (Messages.translateChunkToAnthropicEvents
        ⟨ident, mdl, created,
          [{ delta := { toolCalls := some [{ index := idx, fargs := args }] } }],
          usage⟩ sA
      = (sA, [])) := by
  constructor
  · cases h : truthy args <;>
      simp [Responses.translateChunkToEvents, Responses.handleToolCalls,
        Responses.handleToolCallFragment, Responses.appendToolArguments,
        foldSteps, truthy, hR, h]
  · cases h : truthy args <;>
      simp [Messages.translateChunkToAnthropicEvents, Messages.reasoningPhase,
        Messages.textPhase, Messages.toolPhase, Messages.toolPhaseFragment,
        foldSteps, truthy, hA, hStart, h]

/-- C8 witness. -/
theorem c8_witness :
    alistGet ((Responses.createStreamState samplePayload
        sampleInitChunk).accumulatedToolCalls) 3 = none
    ∧ (Responses.translateChunkToEvents
        ⟨"chatcmpl-1", "gpt-4", 1234567890,
          [{ delta := { toolCalls := some [{ index := 3, fargs := some "x" }] } }],
          none⟩
        (Responses.createStreamState samplePayload sampleInitChunk)
      = (Responses.createStreamState samplePayload sampleInitChunk, [])) := by
  refine ⟨rfl, ?_⟩
  exact
    (c8_unknown_slot_fragment_dropped "chatcmpl-1" "gpt-4" 1234567890 none 3
      (some "x") (Responses.createStreamState samplePayload sampleInitChunk)
      { messageStartSent := true, contentBlockIndex := 0
        contentBlockOpen := false, contentBlockType := none, toolCalls := [] }
      rfl rfl rfl).1

/-- Writing to an association list never empties it. -/
theorem alistSet_ne_nil {α : Type} (l : List (Nat × α)) (k : Nat) (v : α) :
    alistSet l k v ≠ [] := by
  cases l with
  | nil => simp [alistSet]
  | cons hd tl =>
    simp only [alistSet]
    split <;> simp

/-- One Gemini accumulation step never empties the function-call map. -/
theorem accumulateToolCall_ne_nil (st : Gemini.StreamState)
    (tc : ToolCallDelta) (h : st.accumulatedFunctionCalls ≠ []) :
    (Gemini.accumulateToolCall st tc).accumulatedFunctionCalls ≠ [] := by
  unfold Gemini.accumulateToolCall
  split
  · simpa using alistSet_ne_nil _ _ _
  split
  · split
    · simpa using alistSet_ne_nil _ _ _
    · exact h
  · exact h

/-- Accumulating any fragments preserves a non-empty function-call
map. -/
theorem accumulateToolCalls_ne_nil (tcs : Option (List ToolCallDelta))
    (s : Gemini.StreamState) (h : s.accumulatedFunctionCalls ≠ []) :
    (Gemini.accumulateToolCalls tcs s).accumulatedFunctionCalls ≠ [] := by
  cases tcs with
  | none => exact h
  | some l =>
    show (l.foldl Gemini.accumulateToolCall s).accumulatedFunctionCalls ≠ []
    induction l generalizing s with
    | nil => exact h
    | cons tc tl ih =>
      exact ih (Gemini.accumulateToolCall s tc)
        (accumulateToolCall_ne_nil s tc h)

/-- Accumulating fragments never changes the recorded model. -/
theorem accumulateToolCalls_model (tcs : Option (List ToolCallDelta))
    (s : Gemini.StreamState) :
    (Gemini.accumulateToolCalls tcs s).model = s.model := by
  cases tcs with
  | none => rfl
  | some l =>
    show (l.foldl Gemini.accumulateToolCall s).model = s.model
    induction l generalizing s with
    | nil => rfl
    | cons tc tl ih =>
      have hstep : (Gemini.accumulateToolCall s tc).model = s.model := by
        unfold Gemini.accumulateToolCall
        split
        · rfl
        split
        · split <;> rfl
        · rfl
      exact (ih (Gemini.accumulateToolCall s tc)).trans hstep

/-- C10: in the Gemini translator, a finish chunk arriving while at
least one function call has been accumulated yields a final response
with a single candidate whose parts are exactly the accumulated
function calls — every part is a functionCall part and the part list is
non-empty, so a text fragment carried by the finish chunk itself never
appears in the output. -/
theorem c10_function_calls_replace_text (ident mdl : String)
    (created : Nat) (usage : Option ChunkUsage) (delta : ChunkDelta)
    (rest : List ChunkChoice) (fr : FinishReason)
    (s : Gemini.StreamState) (hAcc : s.accumulatedFunctionCalls ≠ []) :
    ∃ parts : List Gemini.GeminiPart,
      (Gemini.translateChunkToGeminiResponse
          ⟨ident, mdl, created, ⟨delta, some fr⟩ :: rest, usage⟩ s).2
        = some
            { candidates :=
                [ { content := some parts
                    finishReason :=
                      some (Gemini.mapOpenAIFinishReasonToGemini (some fr))
                    index := 0 } ]
              usageMetadata :=
                some (Gemini.buildUsageMetadata
                  ⟨ident, mdl, created, ⟨delta, some fr⟩ :: rest, usage⟩)
              modelVersion := some s.model }
      ∧ parts ≠ []
      ∧ ∀ p ∈ parts, p.isFunctionCall = true := by
  have hne := accumulateToolCalls_ne_nil delta.toolCalls s hAcc
  refine ⟨(Gemini.accumulateToolCalls delta.toolCalls
      s).accumulatedFunctionCalls.map
        (fun kv => Gemini.GeminiPart.functionCall kv.2.id kv.2.name kv.2.args),
    ?_, ?_, ?_⟩
  · have hlen :
        0 < (Gemini.accumulateToolCalls delta.toolCalls
          s).accumulatedFunctionCalls.length :=
      List.length_pos.mpr hne
    have hmodel :
        (Gemini.accumulateToolCalls delta.toolCalls s).model = s.model :=
      accumulateToolCalls_model delta.toolCalls s
    simp [Gemini.translateChunkToGeminiResponse, Gemini.buildFinalChunk,
      Gemini.buildFunctionCallResponse, hlen, hmodel]
  · simpa using hne
  · intro p hp
    rcases List.mem_map.mp hp with ⟨kv, _, hkv⟩
    rw [← hkv]
    rfl

/-- C10 witness. -/
theorem c10_witness :
    ((Gemini.StreamState.mk [(0, ⟨"call-1", "get_weather", ""⟩)]
        "gemini-2.5-pro").accumulatedFunctionCalls ≠ [])
    ∧ ∃ parts : List Gemini.GeminiPart,
        (Gemini.translateChunkToGeminiResponse
            ⟨"chatcmpl-1", "gpt-4", 1234567890,
              [{ delta := { content := some "tail text" },
                 finishReason := some .toolCalls }], none⟩
            (Gemini.StreamState.mk [(0, ⟨"call-1", "get_weather", ""⟩)]
              "gemini-2.5-pro")).2
          = some
              { candidates :=
                  [ { content := some parts
                      finishReason :=
                        some (Gemini.mapOpenAIFinishReasonToGemini
                          (some .toolCalls))
                      index := 0 } ]
                usageMetadata :=
                  some (Gemini.buildUsageMetadata
                    ⟨"chatcmpl-1", "gpt-4", 1234567890,
                      [{ delta := { content := some "tail text" },
                         finishReason := some .toolCalls }], none⟩)
                modelVersion :=
                  some (Gemini.StreamState.mk
                    [(0, ⟨"call-1", "get_weather", ""⟩)]
                    "gemini-2.5-pro").model }
        ∧ parts ≠ []
        ∧ ∀ p ∈ parts, p.isFunctionCall = true := by
  refine ⟨by simp, ?_⟩
  exact c10_function_calls_replace_text "chatcmpl-1" "gpt-4" 1234567890 none
    { content := some "tail text" } [] .toolCalls
    (Gemini.StreamState.mk [(0, ⟨"call-1", "get_weather", ""⟩)]
      "gemini-2.5-pro") (by simp)

end CopilotApi
